import Mathlib

/-!
Verification of the `id_key_collections` library.

The library provides two containers keyed by object identity:
`IdKeyDict` (src/id_key_collections/id_key_dict.py) and `IdKeySet`
(src/id_key_collections/id_key_set.py).  Both compute Python's `id(obj)`
for each key/element and index an internal `dict` by that integer token.

Embedding choices:
* A Python object is modelled as `Obj`: an identity token `oid` (the value
  `id(obj)` returns) together with a payload `val` standing for the object's
  value content.  Two value-equal but distinct instances are two `Obj`s with
  equal `val` and different `oid`.
* A Python `dict` with `int` keys is modelled as an association list
  `List (Nat × β)` in insertion order; `d[k] = v` overwrites in place or
  appends (`dinsert`), `del d[k]` / `d.pop(k, None)` removes the key
  (`ddelete` / `derase`), `k in d` is `dmem`, `len` is `List.length`.
* Raising `KeyError` / `TypeError` is modelled with `Except Err`.
* The dynamically-typed right-hand operand of the set operators is the sum
  type `SetRhs`: either an `IdKeySet` or some other (value-based) set.
-/

namespace IdKeyCollections

/-- A Python object instance: `oid` models the stable identity token
`id(obj)`, `val` models the object's value content. -/
structure Obj where
  oid : Nat
  val : Nat
deriving DecidableEq, Repr

/-- Lookup in a Python dict modelled as an association list (first match). -/
def dlookup {β : Type} : List (Nat × β) → Nat → Option β
  | [], _ => none
  | (k', v) :: t, k => if k' = k then some v else dlookup t k

/-- Python `k in d`. -/
def dmem {β : Type} (m : List (Nat × β)) (k : Nat) : Bool :=
  (dlookup m k).isSome

/-- Python `d[k] = v`: overwrite in place if the key is present, else append. -/
def dinsert {β : Type} : List (Nat × β) → Nat → β → List (Nat × β)
  | [], k, v => [(k, v)]
  | (k', v') :: t, k, v =>
    if k' = k then (k, v) :: t else (k', v') :: dinsert t k v

/-- Removal of a key from a Python dict (total; no-op when absent). -/
def derase {β : Type} (m : List (Nat × β)) (k : Nat) : List (Nat × β) :=
  m.filter (fun p => p.1 != k)

/-- Errors the library raises: Python `KeyError` (spec `KeyNotFound`) and
Python `TypeError` (spec `TypeMismatch`). -/
inductive Err where
  | keyNotFound
  | typeMismatch
deriving DecidableEq, Repr

/-- Python `del d[k]`: raises `KeyError` when the key is absent. -/
def ddelete {β : Type} (m : List (Nat × β)) (k : Nat) :
    Except Err (List (Nat × β)) :=
  if dmem m k then Except.ok (derase m k) else Except.error Err.keyNotFound

/-- Python `dict.update(other)`: insert every entry of `other`, in order. -/
def dupdate {β : Type} (m other : List (Nat × β)) : List (Nat × β) :=
  other.foldl (fun acc p => dinsert acc p.1 p.2) m

/-- `IdKeyDict`: `inner` is `_inner_mapping` (token to value), `idToObj` is
`_id_to_obj` (token to retained key object). -/
structure IdKeyDict (β : Type) where
  inner : List (Nat × β)
  idToObj : List (Nat × Obj)
deriving DecidableEq, Repr

namespace IdKeyDict

/-- `IdKeyDict.__init__`: both internal dicts start empty. -/
def empty {β : Type} : IdKeyDict β := ⟨[], []⟩

/-- `IdKeyDict.__setitem__`: store the value and the key object under
`id(key)`. -/
def setitem {β : Type} (d : IdKeyDict β) (key : Obj) (value : β) :
    IdKeyDict β :=
  { inner := dinsert d.inner key.oid value
    idToObj := dinsert d.idToObj key.oid key }

/-- `IdKeyDict.__getitem__`: `self._inner_mapping[id(key)]`, raising
`KeyError` when absent. -/
def getitem {β : Type} (d : IdKeyDict β) (key : Obj) : Except Err β :=
  match dlookup d.inner key.oid with
  | some v => Except.ok v
  | none => Except.error Err.keyNotFound

/-- `IdKeyDict.__delitem__`: `del` on both internal dicts. -/
def delitem {β : Type} (d : IdKeyDict β) (key : Obj) :
    Except Err (IdKeyDict β) := do
  let m ← ddelete d.inner key.oid
  let o ← ddelete d.idToObj key.oid
  return ⟨m, o⟩

/-- `IdKeyDict.__contains__`: `id(key) in self._inner_mapping`. -/
def contains {β : Type} (d : IdKeyDict β) (key : Obj) : Bool :=
  dmem d.inner key.oid

/-- `IdKeyDict.__len__`. -/
def size {β : Type} (d : IdKeyDict β) : Nat :=
  d.inner.length

/-- `IdKeyDict.get`: lookup returning `none` instead of raising
(the spec's `getOrDefault`). -/
def get {β : Type} (d : IdKeyDict β) (key : Obj) : Option β :=
  dlookup d.inner key.oid

/-- `IdKeyDict.__iter__` / `IdKeyDict.keys`: the retained key objects. -/
def keysSeq {β : Type} (d : IdKeyDict β) : List Obj :=
  d.idToObj.map Prod.snd

/-- `IdKeyDict.values`. -/
def valuesSeq {β : Type} (d : IdKeyDict β) : List β :=
  d.inner.map Prod.snd

/-- `IdKeyDict.items`: pairs `(self._id_to_obj[k], v)`; the key-object
lookup is partial in the source, hence the `Option`. -/
def itemsSeq {β : Type} (d : IdKeyDict β) : List (Option Obj × β) :=
  d.inner.map (fun p => (dlookup d.idToObj p.1, p.2))

end IdKeyDict

/-- `IdKeySet`: `inner` is `_inner_mapping` (token to retained element). -/
structure IdKeySet where
  inner : List (Nat × Obj)
deriving DecidableEq, Repr

/-- The dynamically-typed right-hand operand of an `IdKeySet` operator:
either another `IdKeySet`, or some other set-like object (for instance a
value-equality-based set given by its element list). -/
inductive SetRhs where
  | idset (s : IdKeySet)
  | valueSet (xs : List Obj)
deriving DecidableEq, Repr

/-- Whether the operand is an `IdKeySet` (Python's `isinstance` check). -/
def SetRhs.isIdKeySet : SetRhs → Bool
  | .idset _ => true
  | .valueSet _ => false

/-- Keys of `m1` all present in `m2`:
`all(k in other._inner_mapping for k in self._inner_mapping.keys())`. -/
def subsetb {β γ : Type} (m1 : List (Nat × β)) (m2 : List (Nat × γ)) : Bool :=
  (m1.map Prod.fst).all (fun k => dmem m2 k)

/-- Python `dict.keys() == dict.keys()`: set equality of the key views. -/
def keysEqb {β : Type} (m1 m2 : List (Nat × β)) : Bool :=
  subsetb m1 m2 && subsetb m2 m1

/-- Python `dict == dict`: same key set and equal value at every key. -/
def dictEqb {β : Type} [DecidableEq β] (m1 m2 : List (Nat × β)) : Bool :=
  (m1.map Prod.fst).all (fun k => dlookup m1 k == dlookup m2 k) &&
    (m2.map Prod.fst).all (fun k => dlookup m2 k == dlookup m1 k)

/-- The union dict built by `IdKeySet.__or__`:
fresh dict updated with `self` then with `other`. -/
def unionMap (a b : List (Nat × Obj)) : List (Nat × Obj) :=
  dupdate (dupdate [] a) b

/-- The intersection dict built by `IdKeySet.__and__`: iterate `self`,
`add` the element (at `id(v)`) when its token is in `other`. -/
def interMap (a b : List (Nat × Obj)) : List (Nat × Obj) :=
  a.foldl (fun acc p => if dmem b p.1 then dinsert acc p.2.oid p.2 else acc) []

/-- The difference dict built by `IdKeySet.__sub__`: iterate `self`,
`add` the element when its token is not in `other`. -/
def diffMap (a b : List (Nat × Obj)) : List (Nat × Obj) :=
  a.foldl (fun acc p => if dmem b p.1 then acc else dinsert acc p.2.oid p.2) []

namespace IdKeySet

/-- `IdKeySet.__init__`. -/
def empty : IdKeySet := ⟨[]⟩

/-- `IdKeySet.add`: `self._inner_mapping[id(item)] = item`. -/
def add (s : IdKeySet) (item : Obj) : IdKeySet :=
  ⟨dinsert s.inner item.oid item⟩

/-- `IdKeySet.discard`: `self._inner_mapping.pop(id(item), None)`. -/
def discard (s : IdKeySet) (item : Obj) : IdKeySet :=
  ⟨derase s.inner item.oid⟩

/-- `IdKeySet.__contains__`. -/
def contains (s : IdKeySet) (item : Obj) : Bool :=
  dmem s.inner item.oid

/-- `IdKeySet.__len__`. -/
def size (s : IdKeySet) : Nat :=
  s.inner.length

/-- `IdKeySet.__le__` (spec `isSubsetOf`): `TypeError` unless the operand
is an `IdKeySet`. -/
def le (s : IdKeySet) (other : SetRhs) : Except Err Bool :=
  match other with
  | .idset o => Except.ok (subsetb s.inner o.inner)
  | .valueSet _ => Except.error Err.typeMismatch

/-- `IdKeySet.__lt__` (spec `isProperSubsetOf`): subset and
`self._inner_mapping != other._inner_mapping`. -/
def lt (s : IdKeySet) (other : SetRhs) : Except Err Bool :=
  match other with
  | .idset o => Except.ok (subsetb s.inner o.inner && !dictEqb s.inner o.inner)
  | .valueSet _ => Except.error Err.typeMismatch

/-- `IdKeySet.__eq__` (spec `equals`): key views compared as sets. -/
def eqOp (s : IdKeySet) (other : SetRhs) : Except Err Bool :=
  match other with
  | .idset o => Except.ok (keysEqb s.inner o.inner)
  | .valueSet _ => Except.error Err.typeMismatch

/-- `IdKeySet.__gt__` (spec `isProperSupersetOf`). -/
def gt (s : IdKeySet) (other : SetRhs) : Except Err Bool :=
  match other with
  | .idset o => Except.ok (subsetb o.inner s.inner && !dictEqb s.inner o.inner)
  | .valueSet _ => Except.error Err.typeMismatch

/-- `IdKeySet.__ge__` (spec `isSupersetOf`). -/
def ge (s : IdKeySet) (other : SetRhs) : Except Err Bool :=
  match other with
  | .idset o => Except.ok (subsetb o.inner s.inner)
  | .valueSet _ => Except.error Err.typeMismatch

/-- `IdKeySet.__or__` (spec `union`): a fresh set updated with `self` then
`other`. -/
def orOp (s : IdKeySet) (other : SetRhs) : Except Err IdKeySet :=
  match other with
  | .idset o => Except.ok ⟨unionMap s.inner o.inner⟩
  | .valueSet _ => Except.error Err.typeMismatch

/-- `IdKeySet.__and__` (spec `intersection`). -/
def andOp (s : IdKeySet) (other : SetRhs) : Except Err IdKeySet :=
  match other with
  | .idset o => Except.ok ⟨interMap s.inner o.inner⟩
  | .valueSet _ => Except.error Err.typeMismatch

/-- `IdKeySet.__sub__` (spec `difference`). -/
def subOp (s : IdKeySet) (other : SetRhs) : Except Err IdKeySet :=
  match other with
  | .idset o => Except.ok ⟨diffMap s.inner o.inner⟩
  | .valueSet _ => Except.error Err.typeMismatch

end IdKeySet

/-- The spec invariant of `IdKeyDict`: `_inner_mapping` and `_id_to_obj`
hold exactly the same set of tokens. -/
def IdKeyDict.tokensAligned {β : Type} (d : IdKeyDict β) : Bool :=
  subsetb d.inner d.idToObj && subsetb d.idToObj d.inner

/-- A state-changing `IdKeyDict` operation: `__setitem__` or
`__delitem__`. -/
inductive DOp (β : Type) where
  | setK (key : Obj) (value : β)
  | delK (key : Obj)
deriving DecidableEq, Repr

/-- The key object an operation acts on. -/
def DOp.key {β : Type} : DOp β → Obj
  | .setK k _ => k
  | .delK k => k

/-- Run one operation; a `__delitem__` that raises leaves the state
unchanged (when the token is absent the exception fires before any
mutation). -/
def applyOp {β : Type} (d : IdKeyDict β) : DOp β → IdKeyDict β
  | .setK k v => d.setitem k v
  | .delK k =>
    match d.delitem k with
    | Except.ok d2 => d2
    | Except.error _ => d

/-- Run a sequence of operations left to right. -/
def applyOps {β : Type} (d : IdKeyDict β) (ops : List (DOp β)) :
    IdKeyDict β :=
  ops.foldl applyOp d

/-- A well-formed `IdKeySet` state, as produced by the container itself:
dict keys are distinct and every element is stored under its own identity
token (`add` stores `item` at `id(item)`). -/
abbrev WFS (s : IdKeySet) : Prop :=
  (s.inner.map Prod.fst).Nodup ∧ ∀ p ∈ s.inner, p.1 = p.2.oid

/-- Identity coherence of two set states: entries sharing a token hold the
same object.  In Python this always holds, because `id` values of two
simultaneously live objects never collide. -/
abbrev Coherent (A B : IdKeySet) : Prop :=
  ∀ p ∈ A.inner, ∀ q ∈ B.inner, p.1 = q.1 → p.2 = q.2

/-- A heap of `IdKeySet` objects; a reference is an index into the heap.
`IdKeySet()` in the operators allocates a fresh object, i.e. appends. -/
abbrev Store := List IdKeySet

/-- Dereference a set object in the heap. -/
def Store.getSet (σ : Store) (i : Nat) : IdKeySet :=
  σ.getD i IdKeySet.empty

/-- `__or__` at the heap level: build the union dict from the operands at
references `i` and `j`, allocate a fresh set holding it, return the heap
and the fresh reference. -/
def unionAlloc (σ : Store) (i j : Nat) : Store × Nat :=
  (σ ++ [⟨unionMap (σ.getSet i).inner (σ.getSet j).inner⟩], σ.length)

/-- `__and__` at the heap level. -/
def interAlloc (σ : Store) (i j : Nat) : Store × Nat :=
  (σ ++ [⟨interMap (σ.getSet i).inner (σ.getSet j).inner⟩], σ.length)

/-- `__sub__` at the heap level. -/
def diffAlloc (σ : Store) (i j : Nat) : Store × Nat :=
  (σ ++ [⟨diffMap (σ.getSet i).inner (σ.getSet j).inner⟩], σ.length)

/-! ### Basic lemmas about the dict primitives -/

theorem dlookup_dinsert_self {β : Type} (m : List (Nat × β)) (k : Nat) (v : β) :
    dlookup (dinsert m k v) k = some v := by
  induction m with
  | nil => simp [dinsert, dlookup]
  | cons p t ih =>
    obtain ⟨k', v'⟩ := p
    by_cases h : k' = k
    · simp [dinsert, h, dlookup]
    · simp [dinsert, h, dlookup, ih]

theorem dlookup_dinsert_ne {β : Type} (m : List (Nat × β)) {k' k : Nat} (v : β)
    (h : k' ≠ k) : dlookup (dinsert m k' v) k = dlookup m k := by
  induction m with
  | nil => simp [dinsert, dlookup, h]
  | cons p t ih =>
    obtain ⟨ka, va⟩ := p
    by_cases hk : ka = k'
    · simp [dinsert, hk, dlookup, h]
    · simp only [dinsert, hk, if_false, dlookup]
      by_cases hk2 : ka = k
      · simp [hk2]
      · simp [hk2, ih]

theorem dmem_dinsert_self {β : Type} (m : List (Nat × β)) (k : Nat) (v : β) :
    dmem (dinsert m k v) k = true := by
  simp [dmem, dlookup_dinsert_self]

theorem dmem_dinsert_ne {β : Type} (m : List (Nat × β)) {k' k : Nat} (v : β)
    (h : k' ≠ k) : dmem (dinsert m k' v) k = dmem m k := by
  simp [dmem, dlookup_dinsert_ne m v h]

theorem length_dinsert {β : Type} (m : List (Nat × β)) (k : Nat) (v : β) :
    (dinsert m k v).length = if dmem m k then m.length else m.length + 1 := by
  induction m with
  | nil => simp [dinsert, dmem, dlookup]
  | cons p t ih =>
    obtain ⟨ka, va⟩ := p
    by_cases hk : ka = k
    · simp [dinsert, hk, dmem, dlookup]
    · simp only [dinsert, hk, if_false, List.length_cons, dmem, dlookup]
      simp only [dmem] at ih
      by_cases hm : (dlookup t k).isSome
      · simp [hk, hm, ih]
      · simp only [Bool.not_eq_true] at hm
        simp [hk, hm, ih]

theorem dlookup_derase_self {β : Type} (m : List (Nat × β)) (k : Nat) :
    dlookup (derase m k) k = none := by
  induction m with
  | nil => simp [derase, dlookup]
  | cons p t ih =>
    obtain ⟨ka, va⟩ := p
    by_cases hk : ka = k
    · simpa [derase, hk] using ih
    · simp only [derase, List.filter_cons] at ih ⊢
      simp [hk, dlookup, ih]

theorem dlookup_derase_ne {β : Type} (m : List (Nat × β)) {k' k : Nat}
    (h : k' ≠ k) : dlookup (derase m k') k = dlookup m k := by
  induction m with
  | nil => simp [derase]
  | cons p t ih =>
    obtain ⟨ka, va⟩ := p
    by_cases hk : ka = k'
    · subst hk
      simpa [derase, dlookup, h] using ih
    · simp only [derase, List.filter_cons] at ih ⊢
      have hb : (ka != k') = true := bne_iff_ne.mpr hk
      rw [hb]
      simp only [if_true, dlookup]
      by_cases hk2 : ka = k
      · simp [hk2]
      · simp [hk2, ih]

theorem dmem_derase {β : Type} (m : List (Nat × β)) (k' k : Nat) :
    dmem (derase m k') k = (k != k' && dmem m k) := by
  by_cases h : k = k'
  · subst h
    simp [dmem, dlookup_derase_self]
  · have h' : k' ≠ k := fun hc => h hc.symm
    simp [dmem, dlookup_derase_ne m h', h]

theorem derase_of_not_mem {β : Type} (m : List (Nat × β)) (k : Nat)
    (h : dmem m k = false) : derase m k = m := by
  induction m with
  | nil => simp [derase]
  | cons p t ih =>
    obtain ⟨ka, va⟩ := p
    simp only [dmem, dlookup] at h
    by_cases hk : ka = k
    · simp [hk] at h
    · simp only [hk, if_false] at h
      have hb : (ka != k) = true := bne_iff_ne.mpr hk
      simp only [derase, List.filter_cons, hb, if_true, List.cons.injEq,
        true_and]
      exact ih h

theorem dmem_iff_mem_keys {β : Type} (m : List (Nat × β)) (k : Nat) :
    dmem m k = true ↔ k ∈ m.map Prod.fst := by
  induction m with
  | nil => simp [dmem, dlookup]
  | cons p t ih =>
    obtain ⟨ka, va⟩ := p
    by_cases hk : ka = k
    · simp [dmem, dlookup, hk]
    · simp only [dmem, dlookup, hk, if_false, List.map_cons, List.mem_cons]
      simp only [dmem] at ih
      rw [ih]
      constructor
      · exact fun h => Or.inr h
      · rintro (h | h)
        · exact absurd h.symm hk
        · exact h

theorem dlookup_mem {β : Type} (m : List (Nat × β)) (k : Nat) (v : β)
    (h : dlookup m k = some v) : (k, v) ∈ m := by
  induction m with
  | nil => simp [dlookup] at h
  | cons p t ih =>
    obtain ⟨ka, va⟩ := p
    by_cases hk : ka = k
    · subst hk
      simp only [dlookup, if_true] at h
      have : v = va := by
        cases h
        rfl
      simp [this]
    · simp only [dlookup, hk, if_false] at h
      exact List.mem_cons_of_mem _ (ih h)

theorem delitem_eq {β : Type} (d : IdKeyDict β) (key : Obj) :
    d.delitem key =
      if dmem d.inner key.oid then
        if dmem d.idToObj key.oid then
          Except.ok ⟨derase d.inner key.oid, derase d.idToObj key.oid⟩
        else Except.error Err.keyNotFound
      else Except.error Err.keyNotFound := by
  by_cases h1 : dmem d.inner key.oid <;>
    by_cases h2 : dmem d.idToObj key.oid <;>
      simp [IdKeyDict.delitem, ddelete, h1, h2, Bind.bind, Except.bind,
        Functor.map, Except.map, Pure.pure, Except.pure]

theorem subsetb_iff {β γ : Type} (m1 : List (Nat × β))
    (m2 : List (Nat × γ)) :
    subsetb m1 m2 = true ↔ ∀ k, dmem m1 k = true → dmem m2 k = true := by
  simp only [subsetb, List.all_eq_true]
  constructor
  · intro h k hk
    exact h k ((dmem_iff_mem_keys m1 k).mp hk)
  · intro h k hk
    exact h k ((dmem_iff_mem_keys m1 k).mpr hk)

theorem tokensAligned_iff {β : Type} (d : IdKeyDict β) :
    d.tokensAligned = true ↔ ∀ k, dmem d.inner k = dmem d.idToObj k := by
  simp only [IdKeyDict.tokensAligned, Bool.and_eq_true, subsetb_iff]
  constructor
  · rintro ⟨h1, h2⟩ k
    by_cases hk : dmem d.inner k = true
    · rw [hk, h1 k hk]
    · simp only [Bool.not_eq_true] at hk
      rw [hk]
      by_cases hk2 : dmem d.idToObj k = true
      · rw [h2 k hk2] at hk
        simp at hk
      · simp only [Bool.not_eq_true] at hk2
        rw [hk2]
  · intro h
    exact ⟨fun k hk => (h k) ▸ hk, fun k hk => (h k).symm ▸ hk⟩

theorem dlookup_applyOp_ne {β : Type} (d : IdKeyDict β) (op : DOp β)
    (t : Nat) (h : (DOp.key op).oid ≠ t) :
    dlookup (applyOp d op).inner t = dlookup d.inner t := by
  cases op with
  | setK k v =>
    simp only [DOp.key] at h
    simp only [applyOp, IdKeyDict.setitem]
    exact dlookup_dinsert_ne d.inner v h
  | delK k =>
    simp only [DOp.key] at h
    simp only [applyOp]
    rw [delitem_eq]
    by_cases h1 : dmem d.inner k.oid <;> by_cases h2 : dmem d.idToObj k.oid
    · simp only [h1, h2, if_true]
      exact dlookup_derase_ne d.inner h
    · simp [h1, h2]
    · simp [h1, h2]
    · simp [h1, h2]

theorem dlookup_applyOps_ne {β : Type} (ops : List (DOp β)) (t : Nat) :
    ∀ d : IdKeyDict β, (∀ op ∈ ops, (DOp.key op).oid ≠ t) →
      dlookup (applyOps d ops).inner t = dlookup d.inner t := by
  induction ops with
  | nil =>
    intro d _
    rfl
  | cons op rest ih =>
    intro d h
    have h1 : (DOp.key op).oid ≠ t := h op (List.mem_cons_self op rest)
    have h2 : ∀ o ∈ rest, (DOp.key o).oid ≠ t :=
      fun o ho => h o (List.mem_cons_of_mem op ho)
    have hfold : applyOps d (op :: rest) = applyOps (applyOp d op) rest := rfl
    rw [hfold, ih (applyOp d op) h2, dlookup_applyOp_ne d op t h1]

theorem tokensAligned_applyOp {β : Type} (d : IdKeyDict β) (op : DOp β)
    (h : d.tokensAligned = true) : (applyOp d op).tokensAligned = true := by
  rw [tokensAligned_iff] at h ⊢
  cases op with
  | setK k v =>
    intro t
    simp only [applyOp, IdKeyDict.setitem]
    by_cases ht : k.oid = t
    · subst ht
      rw [dmem_dinsert_self, dmem_dinsert_self]
    · rw [dmem_dinsert_ne d.inner v ht, dmem_dinsert_ne d.idToObj k ht, h t]
  | delK k =>
    intro t
    simp only [applyOp]
    rw [delitem_eq]
    by_cases h1 : dmem d.inner k.oid <;> by_cases h2 : dmem d.idToObj k.oid
    · simp only [h1, h2, if_true]
      rw [dmem_derase, dmem_derase, h t]
    · simp [h1, h2, h t]
    · simp [h1, h2, h t]
    · simp [h1, h2, h t]

/-! ### C1: identity, not value, determines membership -/

/-- C1: for distinct instances `x`, `y` that are equal by value, inserting
`x` into an `IdKeyDict` (via `setitem`) or an `IdKeySet` (via `add`) leaves
`contains` for `y` unchanged (so it does not become true); inserting both
adds two entries to `size`; inserting the exact same instance again leaves
`size` unchanged. -/
theorem c1_identity_not_value {β : Type} (d : IdKeyDict β) (s : IdKeySet)
    (x y : Obj) (v w : β) (hval : x.val = y.val) (hoid : x.oid ≠ y.oid) :
    ((d.setitem x v).contains y = d.contains y) ∧
    ((s.add x).contains y = s.contains y) ∧
    (d.contains x = false → d.contains y = false →
      ((d.setitem x v).setitem y w).size = d.size + 2) ∧
    (s.contains x = false → s.contains y = false →
      ((s.add x).add y).size = s.size + 2) ∧
    (((d.setitem x v).setitem x w).size = (d.setitem x v).size) ∧
    (((s.add x).add x).size = (s.add x).size) := by
  refine ⟨?_, ?_, ?_, ?_, ?_, ?_⟩
  · exact dmem_dinsert_ne d.inner v hoid
  · exact dmem_dinsert_ne s.inner x hoid
  · intro hx hy
    simp only [IdKeyDict.contains] at hx hy
    simp [IdKeyDict.setitem, IdKeyDict.size, length_dinsert,
      dmem_dinsert_ne d.inner v hoid, hx, hy]
  · intro hx hy
    simp only [IdKeySet.contains] at hx hy
    simp [IdKeySet.add, IdKeySet.size, length_dinsert,
      dmem_dinsert_ne s.inner x hoid, hx, hy]
  · simp only [IdKeyDict.setitem, IdKeyDict.size, length_dinsert,
      dmem_dinsert_self, if_true]
  · simp only [IdKeySet.add, IdKeySet.size, length_dinsert,
      dmem_dinsert_self, if_true]

/-- C1 witness: concrete instances `x = ⟨0, 5⟩`, `y = ⟨1, 5⟩` (same value,
different identity) in initially empty containers. -/
theorem c1_identity_not_value_witness :
    ((IdKeyDict.empty.setitem ⟨0, 5⟩ (10 : Nat)).contains ⟨1, 5⟩ =
      (IdKeyDict.empty (β := Nat)).contains ⟨1, 5⟩) ∧
    ((IdKeySet.empty.add ⟨0, 5⟩).contains ⟨1, 5⟩ =
      IdKeySet.empty.contains ⟨1, 5⟩) ∧
    (((IdKeyDict.empty.setitem ⟨0, 5⟩ (10 : Nat)).setitem ⟨1, 5⟩ 11).size =
      (IdKeyDict.empty (β := Nat)).size + 2) ∧
    (((IdKeySet.empty.add ⟨0, 5⟩).add ⟨1, 5⟩).size =
      IdKeySet.empty.size + 2) ∧
    (((IdKeyDict.empty.setitem ⟨0, 5⟩ (10 : Nat)).setitem ⟨0, 5⟩ 11).size =
      (IdKeyDict.empty.setitem ⟨0, 5⟩ (10 : Nat)).size) ∧
    (((IdKeySet.empty.add ⟨0, 5⟩).add ⟨0, 5⟩).size =
      (IdKeySet.empty.add ⟨0, 5⟩).size) := by
  have h := c1_identity_not_value (β := Nat) IdKeyDict.empty IdKeySet.empty
    ⟨0, 5⟩ ⟨1, 5⟩ 10 11 (by decide) (by decide)
  exact ⟨h.1, h.2.1, h.2.2.1 (by decide) (by decide),
    h.2.2.2.1 (by decide) (by decide), h.2.2.2.2.1, h.2.2.2.2.2⟩

/-! ### C5: delete raises on absence, discard does not -/

/-- C5: `IdKeyDict.delitem` of an absent key fails with `KeyNotFound`;
`IdKeySet.discard` of an absent item is a successful no-op leaving the set
unchanged; `discard` of a present item removes exactly that entry (the item
itself is gone, every other token's membership is untouched). -/
theorem c5_delete_raises_discard_no_op {β : Type} (d : IdKeyDict β)
    (x : Obj) (s : IdKeySet) (y z : Obj) :
    (d.contains x = false → d.delitem x = Except.error Err.keyNotFound) ∧
    (s.contains y = false → s.discard y = s) ∧
    (s.contains y = true →
      (s.discard y).contains y = false ∧
      (z.oid ≠ y.oid → (s.discard y).contains z = s.contains z)) := by
  refine ⟨?_, ?_, ?_⟩
  · intro hx
    simp only [IdKeyDict.contains] at hx
    simp [IdKeyDict.delitem, ddelete, hx, Bind.bind, Except.bind]
  · intro hy
    simp only [IdKeySet.contains] at hy
    simp [IdKeySet.discard, derase_of_not_mem s.inner y.oid hy]
  · intro _
    constructor
    · simp [IdKeySet.discard, IdKeySet.contains, dmem_derase]
    · intro hz
      simp [IdKeySet.discard, IdKeySet.contains, dmem_derase, hz]

/-- C5 witness: deleting `⟨0, 0⟩` from an empty dict fails; discarding
`⟨0, 0⟩` from an empty set is a no-op; discarding a present `⟨1, 1⟩` removes
it and keeps the other element `⟨2, 2⟩`. -/
theorem c5_delete_raises_discard_no_op_witness :
    ((IdKeyDict.empty (β := Nat)).delitem ⟨0, 0⟩ =
      Except.error Err.keyNotFound) ∧
    (IdKeySet.empty.discard ⟨0, 0⟩ = IdKeySet.empty) ∧
    (((IdKeySet.empty.add ⟨1, 1⟩).add ⟨2, 2⟩).discard ⟨1, 1⟩).contains ⟨1, 1⟩
      = false ∧
    (((IdKeySet.empty.add ⟨1, 1⟩).add ⟨2, 2⟩).discard ⟨1, 1⟩).contains ⟨2, 2⟩
      = ((IdKeySet.empty.add ⟨1, 1⟩).add ⟨2, 2⟩).contains ⟨2, 2⟩ := by
  refine ⟨?_, ?_, ?_, ?_⟩
  · exact (c5_delete_raises_discard_no_op (β := Nat) IdKeyDict.empty ⟨0, 0⟩
      IdKeySet.empty ⟨0, 0⟩ ⟨0, 0⟩).1 (by decide)
  · exact (c5_delete_raises_discard_no_op (β := Nat) IdKeyDict.empty ⟨0, 0⟩
      IdKeySet.empty ⟨0, 0⟩ ⟨0, 0⟩).2.1 (by decide)
  · exact ((c5_delete_raises_discard_no_op (β := Nat) IdKeyDict.empty ⟨0, 0⟩
      ((IdKeySet.empty.add ⟨1, 1⟩).add ⟨2, 2⟩) ⟨1, 1⟩ ⟨2, 2⟩).2.2
      (by decide)).1
  · exact ((c5_delete_raises_discard_no_op (β := Nat) IdKeyDict.empty ⟨0, 0⟩
      ((IdKeySet.empty.add ⟨1, 1⟩).add ⟨2, 2⟩) ⟨1, 1⟩ ⟨2, 2⟩).2.2
      (by decide)).2 (by decide)

/-! ### C6: relational and algebraic operators reject foreign operands -/

/-- C6: every relational and algebraic operator of `IdKeySet` (`le`, `lt`,
`eqOp`, `ge`, `gt`, `orOp`, `andOp`, `subOp`) fails with `TypeMismatch`
whenever the right-hand operand is not an `IdKeySet`, for every state of the
left-hand set. -/
theorem c6_operators_reject_non_idkeyset (A : IdKeySet) (rhs : SetRhs)
    (h : rhs.isIdKeySet = false) :
    A.le rhs = Except.error Err.typeMismatch ∧
    A.lt rhs = Except.error Err.typeMismatch ∧
    A.eqOp rhs = Except.error Err.typeMismatch ∧
    A.ge rhs = Except.error Err.typeMismatch ∧
    A.gt rhs = Except.error Err.typeMismatch ∧
    A.orOp rhs = Except.error Err.typeMismatch ∧
    A.andOp rhs = Except.error Err.typeMismatch ∧
    A.subOp rhs = Except.error Err.typeMismatch := by
  cases rhs with
  | idset o => simp [SetRhs.isIdKeySet] at h
  | valueSet xs =>
    exact ⟨rfl, rfl, rfl, rfl, rfl, rfl, rfl, rfl⟩

/-- C6 witness: a one-element `IdKeySet` compared with a value-based set
holding a value-equal element. -/
theorem c6_operators_reject_non_idkeyset_witness :
    (IdKeySet.empty.add ⟨0, 5⟩).le (SetRhs.valueSet [⟨1, 5⟩]) =
      Except.error Err.typeMismatch ∧
    (IdKeySet.empty.add ⟨0, 5⟩).orOp (SetRhs.valueSet [⟨1, 5⟩]) =
      Except.error Err.typeMismatch := by
  have h := c6_operators_reject_non_idkeyset (IdKeySet.empty.add ⟨0, 5⟩)
    (SetRhs.valueSet [⟨1, 5⟩]) (by decide)
  exact ⟨h.1, h.2.2.2.2.2.1⟩

/-! ### C2: set/get round trip until deletion -/

/-- C2: after `setitem key value`, `getitem key` returns exactly that value
and `contains key` is true in every subsequent state reached by operations
on other keys (different tokens); a later `setitem` on the same key object
silently overwrites the stored value. -/
theorem c2_set_get_roundtrip {β : Type} (d : IdKeyDict β) (x : Obj)
    (v w : β) (ops : List (DOp β))
    (hops : ∀ op ∈ ops, (DOp.key op).oid ≠ x.oid) :
    (applyOps (d.setitem x v) ops).getitem x = Except.ok v ∧
    (applyOps (d.setitem x v) ops).contains x = true ∧
    ((d.setitem x v).setitem x w).getitem x = Except.ok w := by
  have hl : dlookup (applyOps (d.setitem x v) ops).inner x.oid = some v := by
    rw [dlookup_applyOps_ne ops x.oid (d.setitem x v) hops]
    exact dlookup_dinsert_self d.inner x.oid v
  refine ⟨?_, ?_, ?_⟩
  · simp [IdKeyDict.getitem, hl]
  · simp [IdKeyDict.contains, dmem, hl]
  · simp [IdKeyDict.getitem, IdKeyDict.setitem, dlookup_dinsert_self]

/-- C2 witness: key `⟨0, 0⟩` set to `7`, then a set and a raising delete on
the unrelated key `⟨1, 1⟩`; lookup still returns `7`; overwriting with `9`
is observed. -/
theorem c2_set_get_roundtrip_witness :
    (applyOps (IdKeyDict.empty.setitem ⟨0, 0⟩ (7 : Nat))
        [DOp.setK ⟨1, 1⟩ 5, DOp.delK ⟨1, 1⟩, DOp.delK ⟨1, 1⟩]).getitem ⟨0, 0⟩
      = Except.ok 7 ∧
    (applyOps (IdKeyDict.empty.setitem ⟨0, 0⟩ (7 : Nat))
        [DOp.setK ⟨1, 1⟩ 5, DOp.delK ⟨1, 1⟩, DOp.delK ⟨1, 1⟩]).contains
        ⟨0, 0⟩ = true ∧
    ((IdKeyDict.empty.setitem ⟨0, 0⟩ (7 : Nat)).setitem ⟨0, 0⟩ 9).getitem
        ⟨0, 0⟩ = Except.ok 9 :=
  c2_set_get_roundtrip IdKeyDict.empty ⟨0, 0⟩ 7 9
    [DOp.setK ⟨1, 1⟩ 5, DOp.delK ⟨1, 1⟩, DOp.delK ⟨1, 1⟩] (by decide)

/-! ### C3: delete after set; KeyNotFound exactly on absence -/

/-- C3: `delitem` right after `setitem` of the same key succeeds, and in the
resulting state `contains` is false and `getitem` fails with `KeyNotFound`;
in general `getitem` fails with `KeyNotFound` exactly when the key's token
is absent, and (given the two-dict invariant) so does `delitem`. -/
theorem c3_delete_keynotfound {β : Type} (d : IdKeyDict β) (x y : Obj)
    (v : β) (d2 : IdKeyDict β) :
    ((d.setitem x v).delitem x).isOk = true ∧
    ((d.setitem x v).delitem x = Except.ok d2 →
      d2.contains x = false ∧ d2.getitem x = Except.error Err.keyNotFound) ∧
    (d.getitem y = Except.error Err.keyNotFound ↔ d.contains y = false) ∧
    (d.tokensAligned = true →
      (d.delitem y = Except.error Err.keyNotFound ↔
        d.contains y = false)) := by
  refine ⟨?_, ?_, ?_, ?_⟩
  · rw [delitem_eq]
    simp [IdKeyDict.setitem, dmem_dinsert_self, Except.isOk, Except.toBool]
  · intro hdel
    rw [delitem_eq] at hdel
    simp only [IdKeyDict.setitem, dmem_dinsert_self, if_true,
      Except.ok.injEq] at hdel
    have hx : d2.inner = derase (dinsert d.inner x.oid v) x.oid := by
      rw [hdel.symm]
    constructor
    · simp [IdKeyDict.contains, hx, dmem_derase]
    · simp [IdKeyDict.getitem, hx, dlookup_derase_self]
  · cases hv : dlookup d.inner y.oid with
    | none => simp [IdKeyDict.getitem, IdKeyDict.contains, dmem, hv]
    | some u => simp [IdKeyDict.getitem, IdKeyDict.contains, dmem, hv]
  · intro hal
    have h := (tokensAligned_iff d).mp hal y.oid
    rw [delitem_eq]
    cases hv : dmem d.inner y.oid with
    | false => simp [IdKeyDict.contains, hv]
    | true => simp [IdKeyDict.contains, hv, hv ▸ h.symm]

/-- C3 witness: set key `⟨0, 0⟩` in an empty dict, delete it, observe the
resulting state, and check the absence conditions on key `⟨1, 1⟩`. -/
theorem c3_delete_keynotfound_witness :
    (((IdKeyDict.empty.setitem ⟨0, 0⟩ (5 : Nat)).delitem ⟨0, 0⟩).isOk
      = true) ∧
    ((IdKeyDict.mk ([] : List (Nat × Nat)) []).contains ⟨0, 0⟩ = false ∧
      (IdKeyDict.mk ([] : List (Nat × Nat)) []).getitem ⟨0, 0⟩ =
        Except.error Err.keyNotFound) ∧
    ((IdKeyDict.empty (β := Nat)).getitem ⟨1, 1⟩ =
        Except.error Err.keyNotFound ↔
      (IdKeyDict.empty (β := Nat)).contains ⟨1, 1⟩ = false) ∧
    ((IdKeyDict.empty (β := Nat)).delitem ⟨1, 1⟩ =
        Except.error Err.keyNotFound ↔
      (IdKeyDict.empty (β := Nat)).contains ⟨1, 1⟩ = false) := by
  have h := c3_delete_keynotfound (β := Nat) IdKeyDict.empty ⟨0, 0⟩ ⟨1, 1⟩ 5
    (IdKeyDict.mk [] [])
  exact ⟨h.1, h.2.1 (by rfl), h.2.2.1, h.2.2.2 (by rfl)⟩

/-! ### C4: the two internal dicts always hold the same tokens -/

/-- C4: the invariant `tokensAligned` (both internal dicts hold exactly the
same token set) holds for the empty dict and is preserved by `setitem`, by
`delitem` (on success; on failure no new state is produced), and hence by
every sequence of state-changing operations; the remaining operations
(`getitem`, `get`, `contains`, `size`, `keysSeq`, `valuesSeq`, `itemsSeq`)
return values without producing a new state. -/
theorem c4_tokens_aligned_invariant {β : Type} (d d2 : IdKeyDict β) (x : Obj)
    (v : β) (ops : List (DOp β)) :
    (IdKeyDict.empty (β := β)).tokensAligned = true ∧
    (d.tokensAligned = true → (d.setitem x v).tokensAligned = true) ∧
    (d.tokensAligned = true → d.delitem x = Except.ok d2 →
      d2.tokensAligned = true) ∧
    (d.tokensAligned = true → (applyOps d ops).tokensAligned = true) := by
  refine ⟨rfl, ?_, ?_, ?_⟩
  · intro h
    exact tokensAligned_applyOp d (DOp.setK x v) h
  · intro h hdel
    rw [delitem_eq] at hdel
    have h' := (tokensAligned_iff d).mp h
    by_cases h1 : dmem d.inner x.oid
    · have h2 : dmem d.idToObj x.oid = true := (h' x.oid) ▸ h1
      simp only [h1, h2, if_true, Except.ok.injEq] at hdel
      rw [tokensAligned_iff, hdel.symm]
      intro k
      simp only [dmem_derase, h' k]
    · simp [h1] at hdel
  · intro h
    induction ops generalizing d with
    | nil => exact h
    | cons op rest ih =>
      have hstep : applyOps d (op :: rest) = applyOps (applyOp d op) rest :=
        rfl
      rw [hstep]
      exact ih (applyOp d op) (tokensAligned_applyOp d op h)

/-- C4 witness: the invariant checked on the empty dict, after a set, after
a successful delete, and after a mixed operation sequence. -/
theorem c4_tokens_aligned_invariant_witness :
    (IdKeyDict.empty (β := Nat)).tokensAligned = true ∧
    ((IdKeyDict.empty.setitem ⟨0, 0⟩ (1 : Nat)).tokensAligned = true) ∧
    ((IdKeyDict.mk ([] : List (Nat × Nat)) []).tokensAligned = true) ∧
    ((applyOps (IdKeyDict.empty.setitem ⟨0, 0⟩ (1 : Nat))
        [DOp.setK ⟨1, 1⟩ 2, DOp.delK ⟨0, 0⟩, DOp.delK ⟨2, 2⟩]).tokensAligned
      = true) := by
  refine ⟨(c4_tokens_aligned_invariant (β := Nat) IdKeyDict.empty
      IdKeyDict.empty ⟨0, 0⟩ 1 []).1, ?_, ?_, ?_⟩
  · exact (c4_tokens_aligned_invariant (β := Nat) IdKeyDict.empty
      IdKeyDict.empty ⟨0, 0⟩ 1 []).2.1 (by decide)
  · exact (c4_tokens_aligned_invariant (β := Nat)
      (IdKeyDict.empty.setitem ⟨0, 0⟩ 1) (IdKeyDict.mk [] []) ⟨0, 0⟩ 1
      []).2.2.1 (by decide) (by rfl)
  · exact (c4_tokens_aligned_invariant (β := Nat)
      (IdKeyDict.empty.setitem ⟨0, 0⟩ 1) IdKeyDict.empty ⟨0, 0⟩ 1
      [DOp.setK ⟨1, 1⟩ 2, DOp.delK ⟨0, 0⟩, DOp.delK ⟨2, 2⟩]).2.2.2
      (by decide)

/-! ### C9: subset order and equality -/

/-- C9: `le` (isSubsetOf) is reflexive, the empty set is a subset of every
set, and `le` is antisymmetric with `eqOp` (equals): both inclusions hold
exactly when the sets are equal. -/
theorem c9_subset_reflexive_antisymmetric (A B : IdKeySet) :
    A.le (SetRhs.idset A) = Except.ok true ∧
    IdKeySet.empty.le (SetRhs.idset B) = Except.ok true ∧
    ((A.le (SetRhs.idset B) = Except.ok true ∧
        B.le (SetRhs.idset A) = Except.ok true) ↔
      A.eqOp (SetRhs.idset B) = Except.ok true) := by
  refine ⟨?_, ?_, ?_⟩
  · have hs : subsetb A.inner A.inner = true :=
      (subsetb_iff A.inner A.inner).mpr (fun _ hk => hk)
    simp [IdKeySet.le, hs]
  · simp [IdKeySet.le, IdKeySet.empty, subsetb]
  · simp only [IdKeySet.le, IdKeySet.eqOp, keysEqb, Except.ok.injEq,
      Bool.and_eq_true]

/-- C9 witness: reflexivity, the empty-subset scenario, and antisymmetry at
the concrete sets `{⟨0, 1⟩}` and `{⟨0, 1⟩, ⟨1, 2⟩}`. -/
theorem c9_subset_reflexive_antisymmetric_witness :
    (IdKeySet.empty.add ⟨0, 1⟩).le (SetRhs.idset (IdKeySet.empty.add ⟨0, 1⟩))
      = Except.ok true ∧
    IdKeySet.empty.le
      (SetRhs.idset ((IdKeySet.empty.add ⟨0, 1⟩).add ⟨1, 2⟩))
      = Except.ok true ∧
    (((IdKeySet.empty.add ⟨0, 1⟩).le
          (SetRhs.idset ((IdKeySet.empty.add ⟨0, 1⟩).add ⟨1, 2⟩))
          = Except.ok true ∧
        ((IdKeySet.empty.add ⟨0, 1⟩).add ⟨1, 2⟩).le
          (SetRhs.idset (IdKeySet.empty.add ⟨0, 1⟩)) = Except.ok true) ↔
      (IdKeySet.empty.add ⟨0, 1⟩).eqOp
        (SetRhs.idset ((IdKeySet.empty.add ⟨0, 1⟩).add ⟨1, 2⟩))
        = Except.ok true) :=
  ⟨(c9_subset_reflexive_antisymmetric (IdKeySet.empty.add ⟨0, 1⟩)
      ((IdKeySet.empty.add ⟨0, 1⟩).add ⟨1, 2⟩)).1,
    (c9_subset_reflexive_antisymmetric (IdKeySet.empty.add ⟨0, 1⟩)
      ((IdKeySet.empty.add ⟨0, 1⟩).add ⟨1, 2⟩)).2.1,
    (c9_subset_reflexive_antisymmetric (IdKeySet.empty.add ⟨0, 1⟩)
      ((IdKeySet.empty.add ⟨0, 1⟩).add ⟨1, 2⟩)).2.2⟩

/-! ### C10: proper subset / proper superset -/

theorem dictEqb_iff_keysEqb (A B : IdKeySet) (h : Coherent A B) :
    dictEqb A.inner B.inner = true ↔ keysEqb A.inner B.inner = true := by
  simp only [dictEqb, keysEqb, subsetb, Bool.and_eq_true, List.all_eq_true]
  constructor
  · rintro ⟨h1, h2⟩
    constructor
    · intro k hk
      have hb := h1 k hk
      rw [beq_iff_eq] at hb
      have : dmem A.inner k = true := (dmem_iff_mem_keys A.inner k).mpr hk
      simpa [dmem, hb.symm] using this
    · intro k hk
      have hb := h2 k hk
      rw [beq_iff_eq] at hb
      have : dmem B.inner k = true := (dmem_iff_mem_keys B.inner k).mpr hk
      simpa [dmem, hb.symm] using this
  · rintro ⟨h1, h2⟩
    constructor
    · intro k hk
      have hmA : dmem A.inner k = true := (dmem_iff_mem_keys A.inner k).mpr hk
      have hmB : dmem B.inner k = true := h1 k hk
      obtain ⟨a, ha⟩ := Option.isSome_iff_exists.mp hmA
      obtain ⟨b, hb⟩ := Option.isSome_iff_exists.mp hmB
      have hab := h (k, a) (dlookup_mem A.inner k a ha) (k, b)
        (dlookup_mem B.inner k b hb) rfl
      simp only at hab
      rw [ha, hb]
      simp [hab]
    · intro k hk
      have hmB : dmem B.inner k = true := (dmem_iff_mem_keys B.inner k).mpr hk
      have hmA : dmem A.inner k = true := h2 k hk
      obtain ⟨a, ha⟩ := Option.isSome_iff_exists.mp hmA
      obtain ⟨b, hb⟩ := Option.isSome_iff_exists.mp hmB
      have hab := h (k, a) (dlookup_mem A.inner k a ha) (k, b)
        (dlookup_mem B.inner k b hb) rfl
      simp only at hab
      rw [ha, hb]
      simp [hab]

/-- C10: for identity-coherent states (as all states reachable in Python
are, since live `id`s never collide), `lt` (isProperSubsetOf) returns true
exactly when every token of `A` is in `B` and the token sets are not
identical; `gt` (isProperSupersetOf) mirrors it. -/
theorem c10_proper_subset_superset (A B : IdKeySet) (h : Coherent A B) :
    (A.lt (SetRhs.idset B) = Except.ok true ↔
      (subsetb A.inner B.inner = true ∧ keysEqb A.inner B.inner = false)) ∧
    (A.gt (SetRhs.idset B) = Except.ok true ↔
      (subsetb B.inner A.inner = true ∧ keysEqb A.inner B.inner = false)) := by
  have hkey : dictEqb A.inner B.inner = keysEqb A.inner B.inner := by
    have hiff := dictEqb_iff_keysEqb A B h
    cases hd : dictEqb A.inner B.inner <;>
      cases hk : keysEqb A.inner B.inner <;> simp [hd, hk] at hiff ⊢
  constructor
  · simp only [IdKeySet.lt, Except.ok.injEq, Bool.and_eq_true, hkey,
      Bool.not_eq_true']
  · simp only [IdKeySet.gt, Except.ok.injEq, Bool.and_eq_true, hkey,
      Bool.not_eq_true']

/-- C10 witness: `A = {⟨0, 1⟩}` is a proper subset of
`B = {⟨0, 1⟩, ⟨1, 2⟩}` and `B` a proper superset of `A`; the states are
coherent. -/
theorem c10_proper_subset_superset_witness :
    ((IdKeySet.empty.add ⟨0, 1⟩).lt
        (SetRhs.idset ((IdKeySet.empty.add ⟨0, 1⟩).add ⟨1, 2⟩))
        = Except.ok true ↔
      (subsetb (IdKeySet.empty.add ⟨0, 1⟩).inner
          ((IdKeySet.empty.add ⟨0, 1⟩).add ⟨1, 2⟩).inner = true ∧
        keysEqb (IdKeySet.empty.add ⟨0, 1⟩).inner
          ((IdKeySet.empty.add ⟨0, 1⟩).add ⟨1, 2⟩).inner = false)) ∧
    (((IdKeySet.empty.add ⟨0, 1⟩).add ⟨1, 2⟩).gt
        (SetRhs.idset (IdKeySet.empty.add ⟨0, 1⟩)) = Except.ok true ↔
      (subsetb (IdKeySet.empty.add ⟨0, 1⟩).inner
          ((IdKeySet.empty.add ⟨0, 1⟩).add ⟨1, 2⟩).inner = true ∧
        keysEqb ((IdKeySet.empty.add ⟨0, 1⟩).add ⟨1, 2⟩).inner
          (IdKeySet.empty.add ⟨0, 1⟩).inner = false)) :=
  ⟨(c10_proper_subset_superset (IdKeySet.empty.add ⟨0, 1⟩)
      ((IdKeySet.empty.add ⟨0, 1⟩).add ⟨1, 2⟩) (by decide)).1,
    (c10_proper_subset_superset ((IdKeySet.empty.add ⟨0, 1⟩).add ⟨1, 2⟩)
      (IdKeySet.empty.add ⟨0, 1⟩) (by decide)).2⟩

/-! ### C8: binary operators mutate nothing and return fresh sets -/

theorem getSet_append_lt (σ : Store) (s : IdKeySet) (i : Nat)
    (h : i < σ.length) : (σ ++ [s]).getSet i = σ.getSet i := by
  simp only [Store.getSet]
  exact List.getD_append σ [s] IdKeySet.empty i h

theorem getSet_append_self (σ : Store) (s : IdKeySet) :
    (σ ++ [s]).getSet σ.length = s := by
  simp only [Store.getSet]
  rw [List.getD_append_right σ [s] IdKeySet.empty σ.length (le_refl _)]
  simp

theorem alloc_repeat
    (f : List (Nat × Obj) → List (Nat × Obj) → List (Nat × Obj))
    (σ : Store) (i j : Nat) (hi : i < σ.length) (hj : j < σ.length) :
    ((σ ++ [IdKeySet.mk (f (σ.getSet i).inner (σ.getSet j).inner)]) ++
        [IdKeySet.mk (f ((σ ++
              [IdKeySet.mk
                (f (σ.getSet i).inner (σ.getSet j).inner)]).getSet i).inner
            ((σ ++
              [IdKeySet.mk
                (f (σ.getSet i).inner (σ.getSet j).inner)]).getSet
              j).inner)]).getSet
        (σ ++
          [IdKeySet.mk (f (σ.getSet i).inner (σ.getSet j).inner)]).length =
      (σ ++ [IdKeySet.mk (f (σ.getSet i).inner (σ.getSet j).inner)]).getSet
        σ.length := by
  rw [getSet_append_self, getSet_append_lt σ _ i hi,
    getSet_append_lt σ _ j hj, getSet_append_self]

/-- C8: on the heap model, each of `orOp`/`andOp`/`subOp` leaves the states
of both operand references unchanged, returns a reference distinct from
both operands (freshly allocated), the fresh object holds exactly the
result dict of the operation on the unchanged operands, and a repeated call
on the unchanged operands allocates an equal result. -/
theorem c8_operators_fresh_no_mutation (σ : Store) (i j : Nat)
    (hi : i < σ.length) (hj : j < σ.length) :
    ((unionAlloc σ i j).1.getSet i = σ.getSet i ∧
      (unionAlloc σ i j).1.getSet j = σ.getSet j ∧
      (unionAlloc σ i j).2 ≠ i ∧ (unionAlloc σ i j).2 ≠ j ∧
      (unionAlloc σ i j).1.getSet (unionAlloc σ i j).2 =
        ⟨unionMap (σ.getSet i).inner (σ.getSet j).inner⟩ ∧
      (unionAlloc (unionAlloc σ i j).1 i j).1.getSet
          (unionAlloc (unionAlloc σ i j).1 i j).2 =
        (unionAlloc σ i j).1.getSet (unionAlloc σ i j).2) ∧
    ((interAlloc σ i j).1.getSet i = σ.getSet i ∧
      (interAlloc σ i j).1.getSet j = σ.getSet j ∧
      (interAlloc σ i j).2 ≠ i ∧ (interAlloc σ i j).2 ≠ j ∧
      (interAlloc σ i j).1.getSet (interAlloc σ i j).2 =
        ⟨interMap (σ.getSet i).inner (σ.getSet j).inner⟩ ∧
      (interAlloc (interAlloc σ i j).1 i j).1.getSet
          (interAlloc (interAlloc σ i j).1 i j).2 =
        (interAlloc σ i j).1.getSet (interAlloc σ i j).2) ∧
    ((diffAlloc σ i j).1.getSet i = σ.getSet i ∧
      (diffAlloc σ i j).1.getSet j = σ.getSet j ∧
      (diffAlloc σ i j).2 ≠ i ∧ (diffAlloc σ i j).2 ≠ j ∧
      (diffAlloc σ i j).1.getSet (diffAlloc σ i j).2 =
        ⟨diffMap (σ.getSet i).inner (σ.getSet j).inner⟩ ∧
      (diffAlloc (diffAlloc σ i j).1 i j).1.getSet
          (diffAlloc (diffAlloc σ i j).1 i j).2 =
        (diffAlloc σ i j).1.getSet (diffAlloc σ i j).2) := by
  have hilen : σ.length ≠ i := Nat.ne_of_gt hi
  have hjlen : σ.length ≠ j := Nat.ne_of_gt hj
  refine ⟨⟨?_, ?_, ?_, ?_, ?_, ?_⟩, ⟨?_, ?_, ?_, ?_, ?_, ?_⟩,
    ⟨?_, ?_, ?_, ?_, ?_, ?_⟩⟩
  · exact getSet_append_lt σ _ i hi
  · exact getSet_append_lt σ _ j hj
  · exact hilen
  · exact hjlen
  · exact getSet_append_self σ _
  · exact alloc_repeat unionMap σ i j hi hj
  · exact getSet_append_lt σ _ i hi
  · exact getSet_append_lt σ _ j hj
  · exact hilen
  · exact hjlen
  · exact getSet_append_self σ _
  · exact alloc_repeat interMap σ i j hi hj
  · exact getSet_append_lt σ _ i hi
  · exact getSet_append_lt σ _ j hj
  · exact hilen
  · exact hjlen
  · exact getSet_append_self σ _
  · exact alloc_repeat diffMap σ i j hi hj

/-- C8 witness: a heap holding `{⟨0, 1⟩}` and `{⟨1, 2⟩}`; the union
operator leaves both operands unchanged, allocates a fresh reference, and
repeats deterministically; likewise intersection and difference keep their
operands intact. -/
theorem c8_operators_fresh_no_mutation_witness :
    ((unionAlloc [IdKeySet.empty.add ⟨0, 1⟩, IdKeySet.empty.add ⟨1, 2⟩]
        0 1).1.getSet 0 =
      Store.getSet [IdKeySet.empty.add ⟨0, 1⟩, IdKeySet.empty.add ⟨1, 2⟩]
        0) ∧
    ((unionAlloc [IdKeySet.empty.add ⟨0, 1⟩, IdKeySet.empty.add ⟨1, 2⟩]
        0 1).2 ≠ 0) ∧
    ((unionAlloc [IdKeySet.empty.add ⟨0, 1⟩, IdKeySet.empty.add ⟨1, 2⟩]
        0 1).2 ≠ 1) ∧
    ((interAlloc [IdKeySet.empty.add ⟨0, 1⟩, IdKeySet.empty.add ⟨1, 2⟩]
        0 1).1.getSet 1 =
      Store.getSet [IdKeySet.empty.add ⟨0, 1⟩, IdKeySet.empty.add ⟨1, 2⟩]
        1) ∧
    ((diffAlloc [IdKeySet.empty.add ⟨0, 1⟩, IdKeySet.empty.add ⟨1, 2⟩]
        0 1).1.getSet 0 =
      Store.getSet [IdKeySet.empty.add ⟨0, 1⟩, IdKeySet.empty.add ⟨1, 2⟩]
        0) := by
  have h := c8_operators_fresh_no_mutation
    [IdKeySet.empty.add ⟨0, 1⟩, IdKeySet.empty.add ⟨1, 2⟩] 0 1
    (by decide) (by decide)
  exact ⟨h.1.1, h.1.2.2.1, h.1.2.2.2.1, h.2.1.2.1, h.2.2.1⟩

/-! ### C7: token sets of union, intersection, difference -/

theorem dlookup_eq_none_of_not_mem {β : Type} (m : List (Nat × β)) (k : Nat)
    (h : k ∉ m.map Prod.fst) : dlookup m k = none := by
  cases hl : dlookup m k with
  | none => rfl
  | some v =>
    exact absurd ((dmem_iff_mem_keys m k).mp (by simp [dmem, hl])) h

theorem dlookup_eq_none_of_dmem_false {β : Type} (m : List (Nat × β))
    (k : Nat) (h : dmem m k = false) : dlookup m k = none := by
  cases hl : dlookup m k with
  | none => rfl
  | some v => simp [dmem, hl] at h

theorem dupdate_cons {β : Type} (m : List (Nat × β)) (kp : Nat) (vp : β)
    (t : List (Nat × β)) :
    dupdate m ((kp, vp) :: t) = dupdate (dinsert m kp vp) t := rfl

theorem dlookup_dupdate_not_mem {β : Type} (other : List (Nat × β)) :
    ∀ (m : List (Nat × β)) (k : Nat), dmem other k = false →
      dlookup (dupdate m other) k = dlookup m k := by
  induction other with
  | nil =>
    intro m k _
    rfl
  | cons p t ih =>
    intro m k h
    obtain ⟨kp, vp⟩ := p
    by_cases hk : kp = k
    · simp [dmem, dlookup, hk] at h
    · have ht : dmem t k = false := by
        simp only [dmem, dlookup, hk, if_false] at h
        exact h
      rw [dupdate_cons, ih (dinsert m kp vp) k ht]
      exact dlookup_dinsert_ne m vp hk

theorem dlookup_dupdate_mem {β : Type} (other : List (Nat × β)) :
    ∀ (m : List (Nat × β)) (k : Nat), (other.map Prod.fst).Nodup →
      dmem other k = true → dlookup (dupdate m other) k = dlookup other k := by
  induction other with
  | nil =>
    intro m k _ h
    simp [dmem, dlookup] at h
  | cons p t ih =>
    intro m k hnd h
    obtain ⟨kp, vp⟩ := p
    simp only [List.map_cons, List.nodup_cons] at hnd
    rw [dupdate_cons]
    by_cases hk : kp = k
    · subst hk
      have ht : dmem t kp = false := by
        cases hdm : dmem t kp with
        | false => rfl
        | true => exact absurd ((dmem_iff_mem_keys t kp).mp hdm) hnd.1
      rw [dlookup_dupdate_not_mem t (dinsert m kp vp) kp ht,
        dlookup_dinsert_self]
      simp [dlookup]
    · have ht : dmem t k = true := by
        simp only [dmem, dlookup, hk, if_false] at h
        exact h
      rw [ih (dinsert m kp vp) k hnd.2 ht]
      simp [dlookup, hk]

theorem dlookup_unionMap (a b : List (Nat × Obj))
    (hnda : (a.map Prod.fst).Nodup) (hndb : (b.map Prod.fst).Nodup)
    (k : Nat) :
    dlookup (unionMap a b) k =
      if dmem b k then dlookup b k else dlookup a k := by
  unfold unionMap
  cases hb : dmem b k with
  | false =>
    rw [dlookup_dupdate_not_mem b (dupdate [] a) k hb]
    cases ha : dmem a k with
    | false =>
      rw [dlookup_dupdate_not_mem a [] k ha]
      rw [dlookup_eq_none_of_dmem_false a k ha]
      rfl
    | true =>
      rw [dlookup_dupdate_mem a [] k hnda ha]
      simp
  | true =>
    rw [dlookup_dupdate_mem b (dupdate [] a) k hndb hb]
    simp

theorem foldl_keep_lookup (c : Nat → Bool) :
    ∀ (a : List (Nat × Obj)), (∀ p ∈ a, p.1 = p.2.oid) →
      (a.map Prod.fst).Nodup → ∀ (acc : List (Nat × Obj)) (k : Nat),
      dlookup (a.foldl (fun acc p =>
          if c p.1 then dinsert acc p.2.oid p.2 else acc) acc) k =
        match dlookup a k with
        | some v => if c k then some v else dlookup acc k
        | none => dlookup acc k := by
  intro a
  induction a with
  | nil =>
    intro _ _ acc k
    rfl
  | cons p t ih =>
    intro hwf hnd acc k
    obtain ⟨kp, vp⟩ := p
    have hkp : vp.oid = kp := (hwf (kp, vp) (List.mem_cons_self _ _)).symm
    have hwf' : ∀ q ∈ t, q.1 = q.2.oid :=
      fun q hq => hwf q (List.mem_cons_of_mem _ hq)
    simp only [List.map_cons, List.nodup_cons] at hnd
    simp only [List.foldl_cons]
    rw [ih hwf' hnd.2]
    simp only [hkp]
    by_cases hc : c kp = true
    · simp only [hc, if_true]
      by_cases hk : kp = k
      · subst hk
        rw [dlookup_eq_none_of_not_mem t kp hnd.1]
        simp only [dlookup, if_pos rfl, hc, if_true]
        exact dlookup_dinsert_self acc kp vp
      · have hne : dlookup (dinsert acc kp vp) k = dlookup acc k :=
          dlookup_dinsert_ne acc vp hk
        simp only [dlookup, hk, if_false]
        cases hdl : dlookup t k <;> simp [hne]
    · simp only [Bool.not_eq_true] at hc
      simp only [hc, Bool.false_eq_true, if_false]
      by_cases hk : kp = k
      · subst hk
        rw [dlookup_eq_none_of_not_mem t kp hnd.1]
        simp [dlookup, hc]
      · simp only [dlookup, hk, if_false]

theorem foldl_skip_lookup (c : Nat → Bool) :
    ∀ (a : List (Nat × Obj)), (∀ p ∈ a, p.1 = p.2.oid) →
      (a.map Prod.fst).Nodup → ∀ (acc : List (Nat × Obj)) (k : Nat),
      dlookup (a.foldl (fun acc p =>
          if c p.1 then acc else dinsert acc p.2.oid p.2) acc) k =
        match dlookup a k with
        | some v => if c k then dlookup acc k else some v
        | none => dlookup acc k := by
  intro a
  induction a with
  | nil =>
    intro _ _ acc k
    rfl
  | cons p t ih =>
    intro hwf hnd acc k
    obtain ⟨kp, vp⟩ := p
    have hkp : vp.oid = kp := (hwf (kp, vp) (List.mem_cons_self _ _)).symm
    have hwf' : ∀ q ∈ t, q.1 = q.2.oid :=
      fun q hq => hwf q (List.mem_cons_of_mem _ hq)
    simp only [List.map_cons, List.nodup_cons] at hnd
    simp only [List.foldl_cons]
    rw [ih hwf' hnd.2]
    simp only [hkp]
    by_cases hc : c kp = true
    · simp only [hc, if_true]
      by_cases hk : kp = k
      · subst hk
        rw [dlookup_eq_none_of_not_mem t kp hnd.1]
        simp [dlookup, hc]
      · simp only [dlookup, hk, if_false]
    · simp only [Bool.not_eq_true] at hc
      simp only [hc, Bool.false_eq_true, if_false]
      by_cases hk : kp = k
      · subst hk
        rw [dlookup_eq_none_of_not_mem t kp hnd.1]
        simp only [dlookup, if_pos rfl, hc, Bool.false_eq_true, if_false]
        exact dlookup_dinsert_self acc kp vp
      · have hne : dlookup (dinsert acc kp vp) k = dlookup acc k :=
          dlookup_dinsert_ne acc vp hk
        simp only [dlookup, hk, if_false]
        cases hdl : dlookup t k <;> simp [hne]

theorem dlookup_interMap (a b : List (Nat × Obj))
    (hwf : ∀ p ∈ a, p.1 = p.2.oid) (hnd : (a.map Prod.fst).Nodup)
    (k : Nat) :
    dlookup (interMap a b) k =
      if dmem b k then dlookup a k else none := by
  have h := foldl_keep_lookup (fun t => dmem b t) a hwf hnd [] k
  simp only at h
  rw [show interMap a b = a.foldl (fun acc p =>
      if dmem b p.1 then dinsert acc p.2.oid p.2 else acc) [] from rfl, h]
  cases hdl : dlookup a k with
  | none => cases hb : dmem b k <;> simp [dlookup]
  | some v => cases hb : dmem b k <;> simp [hb, dlookup]

theorem dlookup_diffMap (a b : List (Nat × Obj))
    (hwf : ∀ p ∈ a, p.1 = p.2.oid) (hnd : (a.map Prod.fst).Nodup)
    (k : Nat) :
    dlookup (diffMap a b) k =
      if dmem b k then none else dlookup a k := by
  have h := foldl_skip_lookup (fun t => dmem b t) a hwf hnd [] k
  simp only at h
  rw [show diffMap a b = a.foldl (fun acc p =>
      if dmem b p.1 then acc else dinsert acc p.2.oid p.2) [] from rfl, h]
  cases hdl : dlookup a k with
  | none => cases hb : dmem b k <;> simp [dlookup]
  | some v => cases hb : dmem b k <;> simp [hb, dlookup]

/-- C7: for well-formed, identity-coherent operands, the result `U` of
`orOp` holds a token exactly when one of the operands does (and on a token
collision the observable element equals `A`'s, since the same token carries
the same instance); the result `I` of `andOp` holds exactly the tokens
present in both, with elements taken from `A`; the result `D` of `subOp`
holds exactly the tokens present in `A` but absent from `B`. -/
theorem c7_union_inter_diff_tokens (A B U I D : IdKeySet)
    (hA : WFS A) (hB : WFS B) (hco : Coherent A B)
    (hU : A.orOp (SetRhs.idset B) = Except.ok U)
    (hI : A.andOp (SetRhs.idset B) = Except.ok I)
    (hD : A.subOp (SetRhs.idset B) = Except.ok D) (k : Nat) :
    (dmem U.inner k = (dmem A.inner k || dmem B.inner k)) ∧
    (dmem A.inner k = true → dmem B.inner k = true →
      dlookup U.inner k = dlookup A.inner k) ∧
    (dmem I.inner k = (dmem A.inner k && dmem B.inner k)) ∧
    (dmem I.inner k = true → dlookup I.inner k = dlookup A.inner k) ∧
    (dmem D.inner k = (dmem A.inner k && !dmem B.inner k)) := by
  simp only [IdKeySet.orOp, Except.ok.injEq] at hU
  simp only [IdKeySet.andOp, Except.ok.injEq] at hI
  simp only [IdKeySet.subOp, Except.ok.injEq] at hD
  subst hU
  subst hI
  subst hD
  have hUl := dlookup_unionMap A.inner B.inner hA.1 hB.1 k
  have hIl := dlookup_interMap A.inner B.inner hA.2 hA.1 k
  have hDl := dlookup_diffMap A.inner B.inner hA.2 hA.1 k
  have hsB : (dlookup B.inner k).isSome = dmem B.inner k := rfl
  have hsA : (dlookup A.inner k).isSome = dmem A.inner k := rfl
  refine ⟨?_, ?_, ?_, ?_, ?_⟩
  · show (dlookup (unionMap A.inner B.inner) k).isSome = _
    by_cases hb : dmem B.inner k = true
    · rw [hUl, if_pos hb, hsB, hb]
      simp
    · have hb' : dmem B.inner k = false := by
        cases hbb : dmem B.inner k
        · rfl
        · exact absurd hbb hb
      rw [hUl, if_neg hb, hsA, hb']
      simp
  · intro ha hb
    show dlookup (unionMap A.inner B.inner) k = _
    rw [hUl, if_pos hb]
    obtain ⟨a, hla⟩ := Option.isSome_iff_exists.mp ha
    obtain ⟨b, hlb⟩ := Option.isSome_iff_exists.mp hb
    rw [hla, hlb]
    exact congrArg some (hco (k, a) (dlookup_mem A.inner k a hla) (k, b)
      (dlookup_mem B.inner k b hlb) rfl).symm
  · show (dlookup (interMap A.inner B.inner) k).isSome = _
    by_cases hb : dmem B.inner k = true
    · rw [hIl, if_pos hb, hsA, hb]
      simp
    · have hb' : dmem B.inner k = false := by
        cases hbb : dmem B.inner k
        · rfl
        · exact absurd hbb hb
      rw [hIl, if_neg hb, hb']
      simp
  · intro hi
    show dlookup (interMap A.inner B.inner) k = _
    rw [hIl]
    by_cases hb : dmem B.inner k = true
    · rw [if_pos hb]
    · exfalso
      have h3 : (dlookup (interMap A.inner B.inner) k).isSome = true := hi
      rw [hIl, if_neg hb] at h3
      simp at h3
  · show (dlookup (diffMap A.inner B.inner) k).isSome = _
    by_cases hb : dmem B.inner k = true
    · rw [hDl, if_pos hb, hb]
      simp
    · have hb' : dmem B.inner k = false := by
        cases hbb : dmem B.inner k
        · rfl
        · exact absurd hbb hb
      rw [hDl, if_neg hb, hsA, hb']
      simp

/-- C7 witness: `A = {⟨0, 1⟩, ⟨1, 2⟩}`, `B = {⟨1, 2⟩, ⟨2, 3⟩}`; at the
collision token `1` the union keeps `A`'s element, the intersection holds
exactly token `1` with `A`'s element, and the difference drops it. -/
theorem c7_union_inter_diff_tokens_witness :
    (dmem (IdKeySet.mk [(0, ⟨0, 1⟩), (1, ⟨1, 2⟩), (2, ⟨2, 3⟩)]).inner 1 =
      (dmem ((IdKeySet.empty.add ⟨0, 1⟩).add ⟨1, 2⟩).inner 1 ||
        dmem ((IdKeySet.empty.add ⟨1, 2⟩).add ⟨2, 3⟩).inner 1)) ∧
    (dlookup (IdKeySet.mk [(0, ⟨0, 1⟩), (1, ⟨1, 2⟩), (2, ⟨2, 3⟩)]).inner 1 =
      dlookup ((IdKeySet.empty.add ⟨0, 1⟩).add ⟨1, 2⟩).inner 1) ∧
    (dmem (IdKeySet.mk [(1, ⟨1, 2⟩)]).inner 1 =
      (dmem ((IdKeySet.empty.add ⟨0, 1⟩).add ⟨1, 2⟩).inner 1 &&
        dmem ((IdKeySet.empty.add ⟨1, 2⟩).add ⟨2, 3⟩).inner 1)) ∧
    (dlookup (IdKeySet.mk [(1, ⟨1, 2⟩)]).inner 1 =
      dlookup ((IdKeySet.empty.add ⟨0, 1⟩).add ⟨1, 2⟩).inner 1) ∧
    (dmem (IdKeySet.mk [(0, ⟨0, 1⟩)]).inner 1 =
      (dmem ((IdKeySet.empty.add ⟨0, 1⟩).add ⟨1, 2⟩).inner 1 &&
        !dmem ((IdKeySet.empty.add ⟨1, 2⟩).add ⟨2, 3⟩).inner 1)) := by
  have h := c7_union_inter_diff_tokens
    ((IdKeySet.empty.add ⟨0, 1⟩).add ⟨1, 2⟩)
    ((IdKeySet.empty.add ⟨1, 2⟩).add ⟨2, 3⟩)
    (IdKeySet.mk [(0, ⟨0, 1⟩), (1, ⟨1, 2⟩), (2, ⟨2, 3⟩)])
    (IdKeySet.mk [(1, ⟨1, 2⟩)]) (IdKeySet.mk [(0, ⟨0, 1⟩)])
    (by exact ⟨by decide, by decide⟩) (by exact ⟨by decide, by decide⟩)
    (by decide) rfl rfl rfl 1
  exact ⟨h.1, h.2.1 (by decide) (by decide), h.2.2.1,
    h.2.2.2.1 (by decide), h.2.2.2.2⟩

end IdKeyCollections
